import Mathlib

/-!
Verification development for the booker-top event-discovery pipeline.

Each Python module is shallowly embedded as executable Lean definitions:
Python `str` values are modelled as `String` (code-point sequences, so
`text[:n]` is `List.take n` on the character data), Python `None`-able
dict fields as `Option`, floats as `ℚ`, and external I/O (HTTP, DB, env)
as explicit oracle/state parameters.  Python `set` iteration order is
modelled as first-insertion order.  ASCII semantics are used for
`str.lower`, `str.strip`, `\d`, `\s` and `\w` (all inputs of interest are
ASCII).
-/

/-! ## String helpers modelling Python `str` operations -/

/-- Characters matched by Python `str.strip()` / regex `\s` (ASCII set). -/
def pyWs (c : Char) : Bool :=
  c = ' ' || c = '\t' || c = '\n' || c = '\r' || c = '\x0b' || c = '\x0c'

/-- Python `str.strip()`: drop leading and trailing whitespace. -/
def pyStrip (s : String) : String :=
  ⟨((s.data.dropWhile pyWs).reverse.dropWhile pyWs).reverse⟩

/-- Python `str.lower()` (ASCII model). -/
def pyLower (s : String) : String := ⟨s.data.map Char.toLower⟩

/-- Does `pat` occur (contiguously) anywhere in the character list? -/
def infixSearch (pat : List Char) : List Char → Bool
  | [] => pat.isPrefixOf []
  | c :: rest => pat.isPrefixOf (c :: rest) || infixSearch pat rest

/-- Python `sub in s` substring test. -/
def strContains (s sub : String) : Bool := infixSearch sub.data s.data

/-- Python `s.startswith(pre)`. -/
def pyStartsWith (s pre : String) : Bool := pre.data.isPrefixOf s.data

/-- Python `s.endswith(suf)`. -/
def pyEndsWith (s suf : String) : Bool := suf.data.isSuffixOf s.data

/-- Python slicing `s[:n]` (by code point). -/
def pySlice (s : String) (n : Nat) : String := ⟨s.data.take n⟩

/-- Python `s.split(sep)` for a one-character separator, on the
character list. -/
def splitSep (sep : Char) : List Char → List (List Char)
  | [] => [[]]
  | c :: rest =>
    match splitSep sep rest with
    | [] => if c = sep then [[], []] else [[c]]
    | h :: t => if c = sep then [] :: h :: t else (c :: h) :: t

/-- Python `s.split(sep)` for a one-character separator. -/
def pySplitOn (sep : Char) (s : String) : List String :=
  (splitSep sep s.data).map String.mk

/-- Python `text.split("\n")`. -/
def pySplitLines (s : String) : List String := pySplitOn '\n' s

/-- Python `"\n".join(lines)`. -/
def joinNl (l : List String) : String := String.intercalate "\n" l

/-! ## `scrapers/event_parser.py` — structured event drafts -/

/-- One event draft / DB event row.  Python dicts are modelled with every
field optional (`dict.get` returns `None` for missing keys). -/
structure EventDict where
  name : Option String := none
  date : Option String := none
  time : Option String := none
  venue_name : Option String := none
  venue_address : Option String := none
  is_indoor : Option Bool := none
  genre : Option String := none
  segment : Option String := none
  target_audience : Option String := none
  source_url : Option String := none
  source_platform : Option String := none
  price_range : Option String := none
  estimated_capacity : Option Int := none
  description : Option String := none
  is_own_event : Option Bool := none
  deriving DecidableEq, Repr

/-- The `domain_map` table of `_detect_platform`, in dict insertion order. -/
def domain_map : List (String × String) :=
  [("ra.co", "Resident Advisor"),
   ("residentadvisor.net", "Resident Advisor"),
   ("eventbrite.com", "Eventbrite"),
   ("eventbrite.", "Eventbrite"),
   ("feverup.com", "Fever"),
   ("fourvenues.com", "Fourvenues"),
   ("xceed.me", "Xceed"),
   ("dice.fm", "DICE"),
   ("shotgun.live", "Shotgun"),
   ("passline.com", "Passline"),
   ("livepass.com", "LivePass"),
   ("venti.com.ar", "Venti"),
   ("bomboapp.com", "Bombo"),
   ("all-access.com.ar", "All Access"),
   ("skiddle.com", "Skiddle"),
   ("sympla.com.br", "Sympla"),
   ("joinnus.com", "Joinnus"),
   ("boletia.com", "Boletia"),
   ("partyflock.nl", "Partyflock"),
   ("ticketmaster.", "Ticketmaster")]

/-- `_detect_platform`: first table entry whose domain occurs in the URL. -/
def detect_platform (url : String) : String :=
  match domain_map.find? (fun p => strContains url p.1) with
  | some p => p.2
  | none => "Web"

/-- Python `event.get(k) or ""`: `None` and `""` both collapse to `""`. -/
def orEmpty (v : Option String) : String := match v with | some s => s | none => ""

/-- The dedup key of `_deduplicate`:
`((name or "").lower().strip(), date, (venue_name or "").lower().strip())`. -/
def eventKey (e : EventDict) : String × Option String × String :=
  (pyStrip (pyLower (orEmpty e.name)), e.date, pyStrip (pyLower (orEmpty e.venue_name)))

/-- The loop body of `_deduplicate`: `seen` models the Python set of keys. -/
def dedupGo (seen : List (String × Option String × String)) :
    List EventDict → List EventDict
  | [] => []
  | e :: rest =>
    if eventKey e ∈ seen then dedupGo seen rest
    else e :: dedupGo (eventKey e :: seen) rest

/-- `_deduplicate`: drop drafts whose key was already seen, keep order. -/
def deduplicate (events : List EventDict) : List EventDict := dedupGo [] events

/-- `_get_own_brand_keywords`, parameterized by the raw value of the
`OWN_BRAND_KEYWORDS` environment variable (`""` when unset). -/
def get_own_brand_keywords (raw : String) : List String :=
  ((pySplitOn ',' (pyLower raw)).map pyStrip).filter (fun k => k ≠ "")

/-- `flag_own_events`, parameterized by the raw env configuration. -/
def flag_own_events (raw : String) (events : List EventDict) : List EventDict :=
  let keywords := get_own_brand_keywords raw
  if keywords.isEmpty then events
  else events.map (fun e =>
    let combined := pyLower (orEmpty e.name) ++ " " ++ pyLower (orEmpty e.description)
      ++ " " ++ pyLower (orEmpty e.venue_name)
    { e with is_own_event := some (keywords.any (fun kw => strContains combined kw)) })

/-! ### The regex fallback extractor

The three `date_patterns` are embedded as explicit character scanners.
`re.search` semantics: a pattern matches if it matches at some position.
Inside each pattern, adjacent variable-width pieces (`\d{1,2}`, `\s+`,
`\w*`) draw from pairwise disjoint character classes, so maximal-run
consumption is equivalent to the backtracking search (the one-or-two
digit prefix is tried both ways explicitly). -/

/-- Regex `\w` (ASCII model). -/
def isWordC (c : Char) : Bool := c.isAlphanum || c = '_'

/-- Consume exactly `k` digits. -/
def takeDigits : Nat → List Char → Option (List Char)
  | 0, cs => some cs
  | k + 1, c :: cs => if c.isDigit then takeDigits k cs else none
  | _ + 1, [] => none

/-- Consume `\s+` (at least one whitespace char, then the maximal run). -/
def takeWs1 : List Char → Option (List Char)
  | c :: cs => if pyWs c then some (cs.dropWhile pyWs) else none
  | [] => none

/-- The twelve month abbreviations of the first date pattern. -/
def monthAbbrevs : List String :=
  ["Jan", "Feb", "Mar", "Apr", "May", "Jun", "Jul", "Aug", "Sep", "Oct", "Nov", "Dec"]

/-- Consume one month abbreviation (case-sensitive, as in the source). -/
def takeMonthAbbrev (cs : List Char) : Option (List Char) :=
  match monthAbbrevs.find? (fun m => m.data.isPrefixOf cs) with
  | some m => some (cs.drop m.data.length)
  | none => none

/-- `(\d{1,2})\s+(Jan|...|Dec)\w*\s+(\d{4})` anchored at the list head. -/
def pat1At (cs : List Char) : Bool :=
  [2, 1].any (fun k =>
    match takeDigits k cs with
    | none => false
    | some cs1 =>
      match takeWs1 cs1 with
      | none => false
      | some cs2 =>
        match takeMonthAbbrev cs2 with
        | none => false
        | some cs3 =>
          match takeWs1 (cs3.dropWhile isWordC) with
          | none => false
          | some cs4 => (takeDigits 4 cs4).isSome)

/-- `(\d{4})-(\d{2})-(\d{2})` anchored at the list head. -/
def pat2At (cs : List Char) : Bool :=
  match takeDigits 4 cs with
  | none => false
  | some ('-' :: cs1) =>
    match takeDigits 2 cs1 with
    | none => false
    | some ('-' :: cs2) => (takeDigits 2 cs2).isSome
    | some _ => false
  | some _ => false

/-- `(\d{1,2})/(\d{1,2})/(\d{4})` anchored at the list head. -/
def pat3At (cs : List Char) : Bool :=
  [2, 1].any (fun a =>
    match takeDigits a cs with
    | some ('/' :: cs1) =>
      [2, 1].any (fun b =>
        match takeDigits b cs1 with
        | some ('/' :: cs2) => (takeDigits 4 cs2).isSome
        | _ => false)
    | _ => false)

/-- `re.search p text`: does `p` match at some position? -/
def searchAnywhere (p : List Char → Bool) : List Char → Bool
  | [] => p []
  | c :: rest => p (c :: rest) || searchAnywhere p rest

/-- `any(re.search(p, context) for p in date_patterns)`. -/
def hasDatePattern (context : String) : Bool :=
  [pat1At, pat2At, pat3At].any (fun p => searchAnywhere p context.data)

/-- `_regex_fallback`: line-scan extraction used when no AI key is
configured or the AI call fails. -/
def regex_fallback (text source_url city date_from date_to : String) :
    List EventDict :=
  let platform := detect_platform source_url
  let lines := pySplitLines text
  let events := (List.range lines.length).filterMap (fun i =>
    let line := pyStrip (lines.getD i "")
    if line.length < 5 || line.length > 200 then none
    else
      let lo := i - 2
      let hi := min lines.length (i + 3)
      let context := joinNl ((lines.drop lo).take (hi - lo))
      if hasDatePattern context && !pyStartsWith line "http" then
        some { name := some (pySlice line 100),
               date := some date_from,
               time := none,
               venue_name := none,
               venue_address := none,
               is_indoor := none,
               genre := some "other",
               segment := some "other",
               target_audience := some "mainstream",
               source_url := some source_url,
               source_platform := some platform,
               price_range := none,
               estimated_capacity := none,
               description := some ("Found on " ++ platform),
               is_own_event := none }
      else none)
  events.take 20

/-! ## Calendar dates (Python `datetime.date`) -/

/-- A Python `datetime.date` value (proleptic Gregorian calendar). -/
structure PyDate where
  year : Nat
  month : Nat
  day : Nat
  deriving DecidableEq, Repr

/-- Gregorian leap-year rule. -/
def isLeap (y : Nat) : Bool := y % 4 = 0 && (y % 100 ≠ 0 || y % 400 = 0)

/-- Number of days in a month. -/
def daysInMonth (y m : Nat) : Nat :=
  if m = 2 then (if isLeap y then 29 else 28)
  else if m = 4 || m = 6 || m = 9 || m = 11 then 30
  else 31

/-- Python date ordering (lexicographic on year, month, day). -/
def PyDate.le (a b : PyDate) : Bool :=
  a.year < b.year || (a.year = b.year &&
    (a.month < b.month || (a.month = b.month && a.day ≤ b.day)))

/-- Day count since 1970-01-01 (days-from-civil), used as a loop measure. -/
def PyDate.toOrd (d : PyDate) : Int :=
  let y : Int := if d.month ≤ 2 then (d.year : Int) - 1 else (d.year : Int)
  let era : Int := (if y ≥ 0 then y else y - 399) / 400
  let yoe : Int := y - era * 400
  let mp : Int := if d.month > 2 then (d.month : Int) - 3 else (d.month : Int) + 9
  let doy : Int := (153 * mp + 2) / 5 + (d.day : Int) - 1
  let doe : Int := yoe * 365 + yoe / 4 - yoe / 100 + doy
  era * 146097 + doe - 719468

/-- `d + timedelta(days=1)`. -/
def PyDate.nextDay (d : PyDate) : PyDate :=
  if d.day < daysInMonth d.year d.month then ⟨d.year, d.month, d.day + 1⟩
  else if d.month < 12 then ⟨d.year, d.month + 1, 1⟩
  else ⟨d.year + 1, 1, 1⟩

/-- `d + timedelta(days=n)`. -/
def PyDate.addDays (d : PyDate) : Nat → PyDate
  | 0 => d
  | n + 1 => (d.nextDay).addDays n

/-- `d.isoformat()` with zero padding. -/
def padNum (width n : Nat) : String :=
  let s := toString n
  String.mk (List.replicate (width - s.length) '0') ++ s

/-- `d.isoformat()`: `YYYY-MM-DD`. -/
def PyDate.isoformat (d : PyDate) : String :=
  padNum 4 d.year ++ "-" ++ padNum 2 d.month ++ "-" ++ padNum 2 d.day

/-- `date.replace(year:=y, month:=m)`: raises `ValueError` when the day
does not exist in the target month (Python `date.replace`). -/
def PyDate.replaceYM (d : PyDate) (y m : Nat) : Except String PyDate :=
  if d.day ≤ daysInMonth y m then .ok ⟨y, m, d.day⟩
  else .error "day is out of range for month"

/-- The fuel budget that makes the day/month loops below run to their
natural exit: one unit per day of the range plus slack. -/
def loopFuel (dfrom dto : PyDate) : Nat := (dto.toOrd - dfrom.toOrd).toNat + 2

/-- The inclusive day range `[dfrom, dto]` built by repeated
`current += timedelta(days=1)` (fuel bounds the loop; `loopFuel` is
always enough for valid dates). -/
def dateRangeGo (fuel : Nat) (current dto : PyDate) : List PyDate :=
  match fuel with
  | 0 => []
  | f + 1 => if current.le dto then current :: dateRangeGo f current.nextDay dto else []

/-- All days of `[dfrom, dto]`. -/
def dateRange (dfrom dto : PyDate) : List PyDate :=
  dateRangeGo (loopFuel dfrom dto) dfrom dto

/-! ## `scrapers/google_search.py` — query builder and search merge -/

/-- A built query: `{"query": ..., "type": ...}`. -/
structure SQuery where
  query : String
  type : String
  deriving DecidableEq, Repr

/-- The `PLATFORM_QUERIES` table (country → list of (domain, terms)); the
terms keep their `{city}` placeholder, substituted by `formatCity`. -/
def platformQueriesTable (country : String) : List (String × String) :=
  if country = "AR" then
    [("ra.co", "events {city}"), ("passline.com", "fiestas eventos {city}"),
     ("venti.com.ar", "eventos {city}"), ("allaccess.com.ar", "eventos fiestas {city}"),
     ("wearebombo.com", "fiestas {city}"), ("eventbrite.com.ar", "fiestas eventos noche {city}"),
     ("livepass.com.ar", "eventos {city}"), ("buenosaliens.com", "agenda fiestas {city}"),
     ("musicaelectronica.club", "eventos {city}")]
  else if country = "ES" then
    [("ra.co", "events {city}"), ("fourvenues.com", "discotecas fiestas {city}"),
     ("xceed.me", "fiestas clubs {city}"), ("feverup.com", "planes fiestas {city}"),
     ("dice.fm", "events {city}"), ("wearebombo.com", "fiestas {city}")]
  else if country = "US" then
    [("ra.co", "events {city}"), ("eventbrite.com", "parties nightlife {city}"),
     ("dice.fm", "events {city}"), ("shotgun.live", "events parties {city}"),
     ("feverup.com", "things to do parties {city}"), ("songkick.com", "concerts {city}")]
  else if country = "GB" then
    [("ra.co", "events {city}"), ("dice.fm", "events {city}"),
     ("shotgun.live", "events {city}"), ("skiddle.com", "club nights {city}"),
     ("feverup.com", "things to do {city}"), ("songkick.com", "concerts {city}")]
  else if country = "DE" then
    [("ra.co", "events {city}"), ("dice.fm", "events {city}"),
     ("eventbrite.de", "party nachtleben {city}")]
  else if country = "FR" then
    [("ra.co", "events {city}"), ("dice.fm", "events {city}"),
     ("shotgun.live", "soirées {city}")]
  else if country = "NL" then
    [("ra.co", "events {city}"), ("dice.fm", "events {city}"),
     ("partyflock.nl", "feesten {city}")]
  else if country = "BR" then
    [("ra.co", "events {city}"), ("eventbrite.com.br", "festas baladas {city}"),
     ("shotgun.live", "events {city}"), ("sympla.com.br", "festas eventos {city}"),
     ("wearebombo.com", "festas {city}")]
  else if country = "CL" then
    [("ra.co", "events {city}"), ("passline.com", "fiestas eventos {city}"),
     ("eventbrite.cl", "fiestas eventos {city}"), ("wearebombo.com", "fiestas {city}")]
  else if country = "CO" then
    [("ra.co", "events {city}"), ("eventbrite.co", "fiestas eventos rumbas {city}"),
     ("wearebombo.com", "fiestas {city}")]
  else if country = "MX" then
    [("ra.co", "events {city}"), ("eventbrite.com.mx", "fiestas eventos antros {city}"),
     ("boletia.com", "fiestas eventos {city}"), ("wearebombo.com", "fiestas {city}")]
  else if country = "PE" then
    [("ra.co", "events {city}"), ("joinnus.com", "fiestas eventos {city}"),
     ("wearebombo.com", "fiestas {city}")]
  else if country = "UY" then
    [("ra.co", "events {city}"), ("passline.com", "fiestas eventos {city}"),
     ("wearebombo.com", "fiestas {city}")]
  else
    [("ra.co", "events {city}"), ("eventbrite.com", "parties events {city}"),
     ("dice.fm", "events {city}"), ("feverup.com", "things to do {city}"),
     ("songkick.com", "concerts {city}")]

/-- `terms.format(city=city)` on the character list: substitute each
occurrence of the city placeholder. -/
def substCity : List Char → List Char → List Char
  | '\x7b' :: 'c' :: 'i' :: 't' :: 'y' :: '\x7d' :: rest, city =>
    city ++ substCity rest city
  | c :: rest, city => c :: substCity rest city
  | [], _ => []

/-- `terms.format(city=city)`. -/
def formatCity (template city : String) : String :=
  ⟨substCity template.data city.data⟩

/-- `month_names` (English). -/
def monthNameEn (m : Nat) : String :=
  match m with
  | 1 => "January" | 2 => "February" | 3 => "March" | 4 => "April"
  | 5 => "May" | 6 => "June" | 7 => "July" | 8 => "August"
  | 9 => "September" | 10 => "October" | 11 => "November" | 12 => "December"
  | _ => ""

/-- `month_names_es`. -/
def monthNameEs (m : Nat) : String :=
  match m with
  | 1 => "enero" | 2 => "febrero" | 3 => "marzo" | 4 => "abril"
  | 5 => "mayo" | 6 => "junio" | 7 => "julio" | 8 => "agosto"
  | 9 => "septiembre" | 10 => "octubre" | 11 => "noviembre" | 12 => "diciembre"
  | _ => ""

/-- `month_names_pt` (Brazil branch). -/
def monthNamePt (m : Nat) : String :=
  match m with
  | 1 => "janeiro" | 2 => "fevereiro" | 3 => "março" | 4 => "abril"
  | 5 => "maio" | 6 => "junho" | 7 => "julho" | 8 => "agosto"
  | 9 => "setembro" | 10 => "outubro" | 11 => "novembro" | 12 => "dezembro"
  | _ => ""

/-- The month-enumeration loop of `_build_queries`: walks `current` from
`start` to `end` one month at a time, collecting `(month, year)` pairs
(Python set iteration is modelled as insertion order, which here is
chronological).  `current.replace(...)` propagates its `ValueError`; a
fuel shortage (never reached via `monthsEnum`) is a distinct error. -/
def monthsLoopGo (fuel : Nat) (current dend : PyDate) :
    Except String (List (Nat × Nat)) :=
  match fuel with
  | 0 => if current.le dend then .error "fuel exhausted" else .ok []
  | f + 1 =>
    if current.le dend then do
      let next ← if current.month = 12
        then current.replaceYM (current.year + 1) 1
        else current.replaceYM current.year (current.month + 1)
      let rest ← monthsLoopGo f next dend
      pure ((current.month, current.year) :: rest)
    else .ok []

/-- The `(month, year)` pairs touched by the range, as enumerated by
`_build_queries` (may raise, exactly as `date.replace` does). -/
def monthsEnum (dfrom dto : PyDate) : Except String (List (Nat × Nat)) :=
  monthsLoopGo (loopFuel dfrom dto) dfrom dto

/-- `f"{month_name} {year}"`. -/
def monthLabel (name : Nat → String) (p : Nat × Nat) : String :=
  name p.1 ++ " " ++ toString p.2

/-- `if segments:` — `None` and `[]` are both falsy, so the per-segment
loop runs exactly over this list. -/
def segList (segments : Option (List String)) : List String :=
  match segments with | some l => l | none => []

/-- The dedup loop at the end of `_build_queries` (`seen` is the set of
query texts). -/
def dedupQueriesGo (seen : List String) : List SQuery → List SQuery
  | [] => []
  | q :: rest =>
    if q.query ∈ seen then dedupQueriesGo seen rest
    else q :: dedupQueriesGo (q.query :: seen) rest

/-- `_build_queries`: month-keyed general/segment/localized queries plus
platform queries, capped at 12 general-family + 9 platform, then
deduplicated by exact query text. -/
def build_queries (city country : String) (date_from date_to : PyDate)
    (segments : Option (List String)) : Except String (List SQuery) := do
  let pairs ← monthsEnum date_from date_to
  let months_en := pairs.map (monthLabel monthNameEn)
  let months_es := pairs.map (monthLabel monthNameEs)
  let enQ := months_en.flatMap (fun month =>
    [⟨"events parties " ++ city ++ " " ++ month, "general"⟩,
     ⟨"club nights DJ sets " ++ city ++ " " ++ month, "general"⟩,
     ⟨"nightlife parties " ++ city ++ " " ++ month ++ " tickets", "general"⟩,
     ⟨"concerts live music " ++ city ++ " " ++ month, "general"⟩]
    ++ (segList segments).map (fun seg =>
        ⟨seg ++ " party events " ++ city ++ " " ++ month, "segment"⟩))
  let esQ :=
    if country = "ES" || country = "AR" || country = "CL" || country = "CO"
        || country = "MX" || country = "PE" || country = "UY" then
      months_es.flatMap (fun month =>
        [⟨"fiestas eventos " ++ city ++ " " ++ month, "general_es"⟩,
         ⟨"fiestas electrónicas DJ " ++ city ++ " " ++ month, "general_es"⟩,
         ⟨"boliches clubs noche " ++ city ++ " " ++ month, "general_es"⟩,
         ⟨"recitales shows " ++ city ++ " " ++ month ++ " entradas", "general_es"⟩]
        ++ (segList segments).map (fun seg =>
            ⟨"fiestas " ++ seg ++ " " ++ city ++ " " ++ month, "segment_es"⟩))
    else []
  let ptQ ←
    if country = "BR" then do
      let pairs_pt ← monthsEnum date_from date_to
      let months_pt := pairs_pt.map (monthLabel monthNamePt)
      pure (months_pt.flatMap (fun month =>
        [(⟨"festas baladas " ++ city ++ " " ++ month, "general_pt"⟩ : SQuery),
         ⟨"eventos noite DJ " ++ city ++ " " ++ month, "general_pt"⟩]))
    else pure []
  let platformQ := (platformQueriesTable country).map (fun p =>
    (⟨"site:" ++ p.1 ++ " " ++ formatCity p.2 city, "platform"⟩ : SQuery))
  let queries := enQ ++ esQ ++ ptQ ++ platformQ
  let general := queries.filter (fun q => q.type ≠ "platform")
  let platform := queries.filter (fun q => q.type = "platform")
  pure (dedupQueriesGo [] (general.take 12 ++ platform.take 9))

/-- One search result dict (`title`, `link`, `snippet`, `source`);
`r.get("link", "")` is total because `link` is always present here. -/
structure SResult where
  title : String
  link : String
  snippet : String
  source : String
  deriving DecidableEq, Repr

/-- One per-query trace entry of `search_events`. -/
structure QueryDebug where
  query : String
  result_count : Nat
  new_unique : Nat
  source_type : String
  deriving DecidableEq, Repr

/-- The inner result loop of `search_events`: keep results whose URL is
unseen, extend `seen`, and count the newly kept ones (returned as
(kept results, updated seen set, new-unique count)). -/
def mergeNew (results : List SResult) (seen : List String) :
    List SResult × List String × Nat :=
  match results with
  | [] => ([], seen, 0)
  | r :: rs =>
    if r.link ∈ seen then mergeNew rs seen
    else
      let inner := mergeNew rs (r.link :: seen)
      (r :: inner.1, inner.2.1, inner.2.2 + 1)

/-- The per-query loop of `search_events` (API-key path), with the Serper
call abstracted as `oracle : query text → results` (`_serper_search`
never raises: it catches everything and returns `[]`). -/
def searchEventsGo (oracle : String → List SResult) (queries : List SQuery)
    (seen : List String) : List SResult × List QueryDebug :=
  match queries with
  | [] => ([], [])
  | q :: qs =>
    let results := oracle q.query
    let inner := mergeNew results seen
    let rest := searchEventsGo oracle qs inner.2.1
    (inner.1 ++ rest.1, ⟨q.query, results.length, inner.2.2, q.type⟩ :: rest.2)

/-- `search_events` (API-key configured): merge results across queries by
URL identity, keeping per-query trace entries in issued order. -/
def search_events (oracle : String → List SResult) (queries : List SQuery) :
    List SResult × List QueryDebug :=
  searchEventsGo oracle queries []

/-! ## `scrapers/page_scraper.py` — single-page fetches

The HTTP request / HTML stripping (resp. the Playwright render) is an
external effect, abstracted as an `Option String` parameter: `none` when
the fetch raised, `some text` with the extracted text otherwise.  The
post-processing (truncation and the near-empty cutoff) is the code under
verification. -/

/-- The truncation marker literal. -/
def truncationMarker : String := "\n... [truncated]"

/-- Truncation + near-empty cutoff shared by both scrape strategies:
`text[:15000] + marker` when over 15000 chars, then `None` unless the
result is strictly longer than 100 chars. -/
def postProcessText (text : String) : Option String :=
  let text := if text.length > 15000 then pySlice text 15000 ++ truncationMarker else text
  if text.length > 100 then some text else none

/-- `scrape_page_static` given the fetched-and-stripped text (or `none`
if the request raised). -/
def scrape_page_static (fetched : Option String) : Option String :=
  match fetched with
  | none => none
  | some text => postProcessText text

/-- `scrape_page_dynamic`: falls back to the static path when Playwright
is unavailable; otherwise processes the rendered body text. -/
def scrape_page_dynamic (hasPlaywright : Bool) (rendered : Option String)
    (fetchedStatic : Option String) : Option String :=
  if !hasPlaywright then scrape_page_static fetchedStatic
  else
    match rendered with
    | none => none
    | some text => postProcessText text

/-! ## `integrations/weather/open_meteo.py` — weather enrichment

HTTP calls are abstracted as oracles `(start, end) → Option DailyData`
(`none` models a raised/failed request).  Floats are modelled as `ℚ`;
`round` is Python's round-half-to-even. -/

/-- The parsed `data["daily"]` arrays of an Open-Meteo response (fields
not present in a given endpoint's response are simply unused). -/
structure DailyData where
  time : List String := []
  temperature_2m_max : List (Option ℚ) := []
  temperature_2m_min : List (Option ℚ) := []
  precipitation_probability_max : List (Option ℚ) := []
  precipitation_sum : List (Option ℚ) := []
  wind_speed_10m_max : List (Option ℚ) := []
  weather_code : List (Option Int) := []
  deriving Repr

/-- One per-day weather record dict. -/
structure WeatherRec where
  date : String
  temp_max_c : Option ℚ
  temp_min_c : Option ℚ
  precip_prob : ℚ
  wind_kmh : ℚ
  conditions : String
  outdoor_score : Int
  recommendation : String
  data_type : String
  deriving DecidableEq, Repr

/-- Python list indexing: raises `IndexError` past the end. -/
def getIdx {α : Type} (l : List α) (i : Nat) : Except String α :=
  match l.get? i with
  | some x => .ok x
  | none => .error "list index out of range"

/-- Python `v or default` on a possibly-`None` float (0.0 is falsy). -/
def pyOrQ (v : Option ℚ) (dflt : ℚ) : ℚ :=
  match v with
  | none => dflt
  | some x => if x = 0 then dflt else x

/-- `_avg`: mean of the non-`None` values, 0 for an all-`None` list. -/
def pyAvg (values : List (Option ℚ)) : ℚ :=
  let clean := values.filterMap id
  if clean.isEmpty then 0 else clean.sum / clean.length

/-- Python `round(q)`: round half to even. -/
def pythonRound (q : ℚ) : Int :=
  let f := q.floor
  let r := q - f
  if r < 1 / 2 then f
  else if 1 / 2 < r then f + 1
  else if f % 2 = 0 then f else f + 1

/-- Python `round(q, 1)`. -/
def pythonRound1 (q : ℚ) : ℚ := (pythonRound (q * 10) : ℚ) / 10

/-- `_weather_code_to_text`: WMO code → label. -/
def weather_code_to_text (code : Option Int) : String :=
  match code with
  | none => "Unknown"
  | some c =>
    if c = 0 then "Clear sky" else if c = 1 then "Mainly clear"
    else if c = 2 then "Partly cloudy" else if c = 3 then "Overcast"
    else if c = 45 then "Foggy" else if c = 48 then "Fog with rime"
    else if c = 51 then "Light drizzle" else if c = 53 then "Moderate drizzle"
    else if c = 55 then "Dense drizzle" else if c = 61 then "Slight rain"
    else if c = 63 then "Moderate rain" else if c = 65 then "Heavy rain"
    else if c = 71 then "Slight snow" else if c = 73 then "Moderate snow"
    else if c = 75 then "Heavy snow" else if c = 80 then "Slight rain showers"
    else if c = 81 then "Moderate rain showers" else if c = 82 then "Violent rain showers"
    else if c = 85 then "Slight snow showers" else if c = 86 then "Heavy snow showers"
    else if c = 95 then "Thunderstorm" else if c = 96 then "Thunderstorm with hail"
    else if c = 99 then "Thunderstorm with heavy hail"
    else "Code " ++ toString c

/-- `_calc_outdoor_score`: 0–100 outdoor suitability. -/
def calc_outdoor_score (temp_max temp_min : Option ℚ) (precip_prob wind_kmh : ℚ) : Int :=
  let temp_avg : ℚ := (pyOrQ temp_max 22 + pyOrQ temp_min 15) / 2
  let s1 : Int := 100 -
    (if temp_avg < 10 then 40 else if temp_avg < 15 then 20
     else if temp_avg < 18 then 5 else if temp_avg > 35 then 35
     else if temp_avg > 30 then 15 else 0)
  let s2 : Int := s1 -
    (if precip_prob > 70 then 35 else if precip_prob > 50 then 20
     else if precip_prob > 30 then 10 else 0)
  let s3 : Int := s2 - (if wind_kmh > 40 then 25 else if wind_kmh > 25 then 10 else 0)
  max 0 (min 100 s3)

/-- `_outdoor_recommendation`. -/
def outdoor_recommendation (score : Int) : String :=
  if score ≥ 75 then "OUTDOOR" else if score ≥ 50 then "EITHER" else "INDOOR"

/-- The `temp_by_month` table of `_fallback_estimate` (`.get(month, 20)`). -/
def tempByMonth (m : Nat) : Int :=
  match m with
  | 1 => 5 | 2 => 7 | 3 => 12 | 4 => 16 | 5 => 20 | 6 => 25
  | 7 => 28 | 8 => 27 | 9 => 23 | 10 => 17 | 11 => 10 | 12 => 6
  | _ => 20

/-- `_fallback_estimate`: deterministic climate estimate from calendar
month and hemisphere. -/
def fallback_estimate (d : PyDate) (lat : ℚ) : WeatherRec :=
  let month := if lat < 0 then (d.month + 5) % 12 + 1 else d.month
  let base_temp := tempByMonth month
  { date := d.isoformat,
    temp_max_c := some ((base_temp + 4 : Int) : ℚ),
    temp_min_c := some ((base_temp - 4 : Int) : ℚ),
    precip_prob := 30,
    wind_kmh := 15,
    conditions := "Estimated (no data)",
    outdoor_score := 60,
    recommendation := "EITHER",
    data_type := "estimate" }

/-- One iteration of the `for i, d in enumerate(dates)` loop of
`_fetch_forecast`: the record for index `i`. -/
def forecastRecAt (data : DailyData) (i : Nat) : Except String WeatherRec := do
  let d := data.time.getD i ""
  let temp_max ← getIdx data.temperature_2m_max i
  let temp_min ← getIdx data.temperature_2m_min i
  let pp ← getIdx data.precipitation_probability_max i
  let precip_prob := pyOrQ pp 0
  let w ← getIdx data.wind_speed_10m_max i
  let wind := pyOrQ w 0
  let code ← getIdx data.weather_code i
  let outdoor_score := calc_outdoor_score temp_max temp_min precip_prob wind
  pure { date := d,
         temp_max_c := temp_max,
         temp_min_c := temp_min,
         precip_prob := precip_prob,
         wind_kmh := wind,
         conditions := weather_code_to_text code,
         outdoor_score := outdoor_score,
         recommendation := outdoor_recommendation outdoor_score,
         data_type := "forecast" }

/-- The `_fetch_forecast` loop over the given index list. -/
def fetchForecastGo (data : DailyData) : List Nat → Except String (List WeatherRec)
  | [] => .ok []
  | i :: is => do
    let rec1 ← forecastRecAt data i
    let rest ← fetchForecastGo data is
    pure (rec1 :: rest)

/-- `_fetch_forecast` applied to a parsed response: one record per entry
of `daily["time"]`; ragged arrays raise `IndexError` (caught upstream). -/
def fetch_forecast (data : DailyData) : Except String (List WeatherRec) :=
  fetchForecastGo data (List.range data.time.length)

/-- `get_weather_for_range`: near-term days (today .. today+14) via one
forecast call (falling back to estimates if it raises or its parsing
raises), every other day directly via the climate estimate. -/
def get_weather_for_range (today : PyDate)
    (oracle : PyDate → PyDate → Option DailyData)
    (lat lon : ℚ) (date_from date_to : PyDate) : List WeatherRec :=
  let forecast_limit := today.addDays 14
  let parts := (dateRange date_from date_to).partition
    (fun d => today.le d && d.le forecast_limit)
  let fres :=
    match parts.1 with
    | [] => []
    | f0 :: fs =>
      let lastD := (f0 :: fs).getLast (List.cons_ne_nil f0 fs)
      match oracle f0 lastD with
      | none => (f0 :: fs).map (fun d => fallback_estimate d lat)
      | some data =>
        match fetch_forecast data with
        | .ok recs => recs
        | .error _ => (f0 :: fs).map (fun d => fallback_estimate d lat)
  fres ++ parts.2.map (fun d => fallback_estimate d lat)

/-- `date.replace(year := y)` with the source's Feb-29 `except` fix. -/
def replaceYearFeb29 (d : PyDate) (y : Nat) : PyDate :=
  if d.day ≤ daysInMonth y d.month then ⟨y, d.month, d.day⟩ else ⟨y, d.month, 28⟩

/-- Python `min(dates)` (first minimum). -/
def minDate (d0 : PyDate) (ds : List PyDate) : PyDate :=
  ds.foldl (fun acc x => if !(acc.le x) then x else acc) d0

/-- Python `max(dates)` (first maximum). -/
def maxDate (d0 : PyDate) (ds : List PyDate) : PyDate :=
  ds.foldl (fun acc x => if !(x.le acc) then x else acc) d0

/-- First occurrence of each value, modelling `set(codes)` iteration. -/
def firstDedupGo (seen : List Int) : List Int → List Int
  | [] => []
  | c :: rest =>
    if c ∈ seen then firstDedupGo seen rest
    else c :: firstDedupGo (c :: seen) rest

/-- `set(codes)` in first-occurrence order. -/
def firstDedupInts (codes : List Int) : List Int := firstDedupGo [] codes

/-- `max(set(codes), key=codes.count)`: the first value (in set order,
modelled as first occurrence) with strictly maximal count. -/
def modalCode (codes : List Int) : Int :=
  match firstDedupInts codes with
  | [] => 0
  | u0 :: us => us.foldl (fun best c =>
      if codes.count best < codes.count c then c else best) u0

/-- `_fetch_historical_averages`: for each requested date, gather the
same calendar date from the last 10 years, query the archive API once,
and average the matching entries (estimate on request failure or when no
entry matches).  Ragged response arrays raise, as Python indexing does. -/
def fetch_historical_averages (today : PyDate)
    (oracle : PyDate → PyDate → Option DailyData)
    (lat : ℚ) : List PyDate → Except String (List WeatherRec)
  | [] => .ok []
  | d :: restDates => do
    let yearly_data := (List.range 10).map (fun k => replaceYearFeb29 d (today.year - (k + 1)))
    match yearly_data with
    | [] => fetch_historical_averages today oracle lat restDates
    | y0 :: ys =>
      let startD := minDate y0 ys
      let endD := maxDate y0 ys
      match oracle startD endD with
      | none => do
        let rest ← fetch_historical_averages today oracle lat restDates
        pure (fallback_estimate d lat :: rest)
      | some data =>
        let api_dates := data.time
        let target_md := "-" ++ padNum 2 d.month ++ "-" ++ padNum 2 d.day
        let matching := (List.range api_dates.length).filter
          (fun i => pyEndsWith (api_dates.getD i "") target_md)
        match matching with
        | [] => do
          let rest ← fetch_historical_averages today oracle lat restDates
          pure (fallback_estimate d lat :: rest)
        | _ :: _ => do
          let tmaxs ← matching.mapM (getIdx data.temperature_2m_max)
          let avg_max := pyAvg tmaxs
          let tmins ← matching.mapM (getIdx data.temperature_2m_min)
          let avg_min := pyAvg tmins
          let precs ← matching.mapM (fun i => do
            let v ← getIdx data.precipitation_sum i
            pure (pyOrQ v 0))
          let _avg_precip := pyAvg (precs.map some)
          let windvs ← matching.mapM (fun i => do
            let v ← getIdx data.wind_speed_10m_max i
            pure (pyOrQ v 0))
          let avg_wind := pyAvg (windvs.map some)
          let rainy_days := (precs.filter (fun p => p > 1)).length
          let precip_prob : ℚ := ((rainy_days : ℚ) / (matching.length : ℚ)) * 100
          let codesOpt ← matching.mapM (getIdx data.weather_code)
          let codes := codesOpt.filterMap id
          let most_common_code := if codes.isEmpty then 0 else modalCode codes
          let outdoor_score := calc_outdoor_score (some avg_max) (some avg_min) precip_prob avg_wind
          let rec1 : WeatherRec :=
            { date := d.isoformat,
              temp_max_c := some (pythonRound1 avg_max),
              temp_min_c := some (pythonRound1 avg_min),
              precip_prob := (pythonRound precip_prob : ℚ),
              wind_kmh := pythonRound1 avg_wind,
              conditions := weather_code_to_text (some most_common_code) ++ " (historical avg)",
              outdoor_score := outdoor_score,
              recommendation := outdoor_recommendation outdoor_score,
              data_type := "historical_avg" }
          let rest ← fetch_historical_averages today oracle lat restDates
          pure (rec1 :: rest)

/-! ## `core/search_orchestrator.py` — pipeline orchestration

`run_search`'s stages (search, scraping, extraction, persistence,
weather) are all external effects; for the failure-semantics analysis the
whole `try`-block body (steps 1–7) is abstracted as an
`Except (message × accumulated trace) (final trace)` value, and
`save_debug_log` as possibly raising (`Option String` = raised message).
`update_search_status` is modelled as a plain state write. -/

/-- One entry of `debug["scrape_attempts"]` (the `source` tag is only
present for direct-URL attempts). -/
structure ScrapeAttempt where
  url : String
  domain : String
  success : Bool
  source : Option String := none
  deriving DecidableEq, Repr

/-- The pipeline trace (`debug` dict) accumulated by `run_search`. -/
structure DebugLog where
  queries : List QueryDebug := []
  search_results_total : Nat := 0
  direct_urls_scraped : Nat := 0
  scrape_attempts : List ScrapeAttempt := []
  scrape_success : Nat := 0
  scrape_fail : Int := 0
  ai_input_pages : Nat := 0
  events_extracted : Nat := 0
  events_by_source : List (String × Nat) := []
  top_domains : List (String × Nat) := []
  error : Option String := none
  deriving DecidableEq, Repr

/-- The persisted state of one `searches` row that `run_search` touches. -/
structure DbState where
  status : String
  debug_log : Option DebugLog
  deriving DecidableEq, Repr

/-- `run_search` after the Run record exists: runs the staged body, and
on success saves the trace and marks the run completed; on any body (or
success-path save) exception, records the message in the trace, saves it
best-effort (a save exception is swallowed), marks the run failed, and
re-raises. -/
def run_search (search_id : Nat)
    (body : Except (String × DebugLog) DebugLog)
    (saveOnSuccess saveInHandler : Option String)
    (st : DbState) : Except String Nat × DbState :=
  match body with
  | .ok dbg =>
    match saveOnSuccess with
    | none => (.ok search_id, { st with status := "completed", debug_log := some dbg })
    | some m =>
      let dbg2 := { dbg with error := some m }
      let st2 : DbState := match saveInHandler with
        | none => { st with debug_log := some dbg2 }
        | some _ => st
      (.error m, { st2 with status := "failed" })
  | .error (e, dbg) =>
    let dbg2 := { dbg with error := some e }
    let st2 : DbState := match saveInHandler with
      | none => { st with debug_log := some dbg2 }
      | some _ => st
    (.error e, { st2 with status := "failed" })

/-! ### `get_results_by_date` -/

/-- Lexicographic code-point comparison (Python `str <`). -/
def charListLt : List Char → List Char → Bool
  | [], [] => false
  | [], _ :: _ => true
  | _ :: _, [] => false
  | a :: as, b :: bs => a < b || (a = b && charListLt as bs)

/-- Python `a < b` on strings. -/
def strLtB (a b : String) : Bool := charListLt a.data b.data

/-- Insert into a `strLtB`-sorted list. -/
def insSorted (x : String) : List String → List String
  | [] => [x]
  | y :: ys => if strLtB y x then y :: insSorted x ys else x :: y :: ys

/-- Python `sorted` on strings (insertion sort; order-equivalent since
`strLtB` is a total strict order). -/
def sortStrings (l : List String) : List String := l.foldr insSorted []

/-- `set(...)` on strings (first-occurrence order; the order is erased by
the sort that follows). -/
def dedupStringsGo (seen : List String) : List String → List String
  | [] => []
  | s :: rest =>
    if s ∈ seen then dedupStringsGo seen rest
    else s :: dedupStringsGo (s :: seen) rest

/-- Deduplicate strings, keeping first occurrences. -/
def dedupStrings (l : List String) : List String := dedupStringsGo [] l

/-- `events_by_date.setdefault(d, []).append(event)` on an insertion
ordered association list. -/
def addToGroup : List (String × List EventDict) → String → EventDict →
    List (String × List EventDict)
  | [], d, e => [(d, [e])]
  | (k, v) :: rest, d, e =>
    if k = d then (k, v ++ [e]) :: rest else (k, v) :: addToGroup rest d e

/-- `dict[key] = value` (replace keeps the key's position). -/
def upsertW : List (String × WeatherRec) → String → WeatherRec →
    List (String × WeatherRec)
  | [], d, w => [(d, w)]
  | (k, v) :: rest, d, w =>
    if k = d then (k, w) :: rest else (k, v) :: upsertW rest d w

/-- Association-list lookup. -/
def lookupStr {α : Type} (l : List (String × α)) (d : String) : Option α :=
  (l.find? (fun p => p.1 = d)).map (·.2)

/-- `segment_counts[seg] = segment_counts.get(seg, 0) + 1`. -/
def bumpCount : List (String × Nat) → String → List (String × Nat)
  | [], s => [(s, 1)]
  | (k, v) :: rest, s =>
    if k = s then (k, v + 1) :: rest else (k, v) :: bumpCount rest s

/-- Digits of a numeric string to a `Nat`. -/
def digitsToNat (cs : List Char) : Nat :=
  cs.foldl (fun a c => a * 10 + (c.toNat - '0'.toNat)) 0

/-- `datetime.strptime(s, "%Y-%m-%d")`: 4-digit year, 1–2 digit month
and day, full calendar validation; `none` models the `ValueError`. -/
def parseIsoDate (s : String) : Option PyDate :=
  match pySplitOn '-' s with
  | [ys, ms, ds] =>
    if ys.length = 4 && ys.data.all Char.isDigit
        && 1 ≤ ms.length && ms.length ≤ 2 && ms.data.all Char.isDigit
        && 1 ≤ ds.length && ds.length ≤ 2 && ds.data.all Char.isDigit then
      let y := digitsToNat ys.data
      let m := digitsToNat ms.data
      let dd := digitsToNat ds.data
      if 1 ≤ m && m ≤ 12 && 1 ≤ dd && dd ≤ daysInMonth y m then
        some ⟨y, m, dd⟩
      else none
    else none
  | _ => none

/-- `strftime("%A")` day names, indexed from 1970-01-01 (a Thursday). -/
def weekdayName (d : PyDate) : String :=
  let idx := ((d.toOrd % 7) + 7) % 7
  if idx = 0 then "Thursday" else if idx = 1 then "Friday"
  else if idx = 2 then "Saturday" else if idx = 3 then "Sunday"
  else if idx = 4 then "Monday" else if idx = 5 then "Tuesday"
  else "Wednesday"

/-- `_day_name`: weekday label of an ISO date string, `""` on a parse
error. -/
def day_name (date_str : String) : String :=
  match parseIsoDate date_str with
  | some d => weekdayName d
  | none => ""

/-- One value of the dict returned by `get_results_by_date`. -/
structure DayView where
  date : String
  day_name : String
  events : List EventDict
  event_count : Nat
  competition_level : String
  segment_counts : List (String × Nat)
  weather : Option WeatherRec
  has_own_event : Bool
  deriving DecidableEq, Repr

/-- `e.get("segment") or "other"` (`None` and `""` are falsy). -/
def segOf (e : EventDict) : String :=
  match e.segment with
  | none => "other"
  | some s => if s = "" then "other" else s

/-- `get_results_by_date` over the persisted rows of one run: group
events by day, index weather by day, union and sort the day keys, and
build each day's view (competition level, segment histogram, own-event
flag). -/
def get_results_by_date (events : List EventDict)
    (weather_days : List WeatherRec) : List (String × DayView) :=
  let weather_by_date := weather_days.foldl (fun acc w => upsertW acc w.date w) []
  let events_by_date := events.foldl (fun acc e =>
    match e.date with
    | some d => if d ≠ "" then addToGroup acc d e else acc
    | none => acc) []
  let all_dates := sortStrings (dedupStrings
    (events_by_date.map (·.1) ++ weather_by_date.map (·.1)))
  all_dates.map (fun d =>
    let day_events := (lookupStr events_by_date d).getD []
    let day_weather := lookupStr weather_by_date d
    let event_count := day_events.length
    let competition :=
      if event_count = 0 then "none"
      else if event_count ≤ 2 then "low"
      else if event_count ≤ 5 then "medium"
      else "high"
    let segment_counts := day_events.foldl (fun acc e => bumpCount acc (segOf e)) []
    let has_own := day_events.any (fun e => e.is_own_event.getD false)
    (d, { date := d,
          day_name := day_name d,
          events := day_events,
          event_count := event_count,
          competition_level := competition,
          segment_counts := segment_counts,
          weather := day_weather,
          has_own_event := has_own }))

/-! ## Shared helper lemmas -/

theorem exceptBindOk {ε α β : Type} {ma : Except ε α} {f : α → Except ε β} {b : β}
    (h : (ma >>= f) = .ok b) : ∃ a, ma = .ok a ∧ f a = .ok b := by
  cases ma with
  | ok a => exact ⟨a, rfl, h⟩
  | error e => simp [Bind.bind, Except.bind] at h

theorem infixSearch_append_self (pat : List Char) :
    ∀ pre : List Char, infixSearch pat (pre ++ pat) = true := by
  intro pre
  induction pre with
  | nil =>
    cases pat with
    | nil => rfl
    | cons c rest =>
      simp only [List.nil_append, infixSearch]
      have : List.isPrefixOf (c :: rest) (c :: rest) = true := by
        simp [List.isPrefixOf_iff_prefix]
      simp [this]
  | cons c pre ih =>
    rw [List.cons_append]
    show (pat.isPrefixOf (c :: (pre ++ pat)) || infixSearch pat (pre ++ pat)) = true
    rw [ih, Bool.or_true]

/-- `strContains (a ++ b) b` always holds. -/
theorem strContains_append_self (a b : String) : strContains (a ++ b) b = true := by
  show infixSearch b.data (a ++ b).data = true
  have : (a ++ b).data = a.data ++ b.data := by
    cases a; cases b; rfl
  rw [this]
  exact infixSearch_append_self b.data a.data

/-! ## Claim theorems -/

/-- C7: with brand keyword configuration `{"acme"}` the event named
"ACME Rooftop Party" is flagged as an own event; with no brand keywords
configured, `flag_own_events` returns every event list unchanged. -/
theorem own_event_flagging :
    (∀ evs : List EventDict, flag_own_events "" evs = evs) ∧
    (flag_own_events "acme" [{ name := some "ACME Rooftop Party" }]).map
        (fun e => (e.name, e.is_own_event)) =
      [(some "ACME Rooftop Party", some true)] :=
  ⟨fun _ => rfl, by decide⟩

/-- C1: when the staged body of `run_search` raises after the Run record
exists, the error message is recorded in the trace, the trace is saved on
a best-effort basis (a failing save is swallowed and leaves the stored
log untouched), the run is marked failed, and the original exception is
re-raised regardless of how the save went. -/
theorem orchestrator_failure_semantics
    (search_id : Nat) (e : String) (dbg : DebugLog)
    (saveOnSuccess saveInHandler : Option String) (st : DbState) :
    (run_search search_id (.error (e, dbg)) saveOnSuccess saveInHandler st).1 =
        .error e ∧
    (run_search search_id (.error (e, dbg)) saveOnSuccess saveInHandler st).2.status =
        "failed" ∧
    (run_search search_id (.error (e, dbg)) saveOnSuccess saveInHandler st).2.debug_log =
        (match saveInHandler with
          | none => some { dbg with error := some e }
          | some _ => st.debug_log) := by
  cases saveInHandler <;> exact ⟨rfl, rfl, rfl⟩

theorem string_length_data (s : String) : s.length = s.data.length := by
  cases s; rfl

theorem postProcessText_cases (text : String) :
    postProcessText text = none ∨
      ∃ t, postProcessText text = some t ∧ 100 < t.length ∧ t ≠ "" := by
  unfold postProcessText
  set t := if text.length > 15000 then pySlice text 15000 ++ truncationMarker else text
    with ht
  by_cases h : t.length > 100
  · right
    refine ⟨t, by simp [h], h, ?_⟩
    intro he
    rw [he] at h
    simp at h
  · left
    simp [h]

theorem postProcessText_trunc (raw : String) (h : 15000 < raw.length) :
    postProcessText raw = some (pySlice raw 15000 ++ truncationMarker) := by
  have hlen : (pySlice raw 15000 ++ truncationMarker).length = 15016 := by
    rw [String.length_append]
    have h1 : (pySlice raw 15000).length = 15000 := by
      show (raw.data.take 15000).length = 15000
      rw [List.length_take]
      have := string_length_data raw
      omega
    have h2 : truncationMarker.length = 16 := by decide
    omega
  unfold postProcessText
  rw [if_pos h, if_pos (by rw [hlen]; omega)]

theorem scrape_static_cases (fetched : Option String) :
    scrape_page_static fetched = none ∨
      ∃ t, scrape_page_static fetched = some t ∧ 100 < t.length ∧ t ≠ "" := by
  cases fetched with
  | none => exact Or.inl rfl
  | some text => exact postProcessText_cases text

theorem scrape_dynamic_cases (hasPw : Bool) (rendered fetchedStatic : Option String) :
    scrape_page_dynamic hasPw rendered fetchedStatic = none ∨
      ∃ t, scrape_page_dynamic hasPw rendered fetchedStatic = some t ∧
        100 < t.length ∧ t ≠ "" := by
  cases hasPw with
  | false => exact scrape_static_cases fetchedStatic
  | true =>
    cases rendered with
    | none => exact Or.inl rfl
    | some text => exact postProcessText_cases text

/-- C9: a single-page fetch yields either `None` or a non-empty text
strictly longer than the 100-character minimum, and text longer than the
15000-character maximum is cut to that length with the truncation marker
appended (for both the static and the dynamic strategy). -/
theorem page_fetch_content_bounds :
    (∀ fetched : Option String,
      scrape_page_static fetched = none ∨
        ∃ t, scrape_page_static fetched = some t ∧ 100 < t.length ∧ t ≠ "") ∧
    (∀ (hasPw : Bool) (rendered fetchedStatic : Option String),
      scrape_page_dynamic hasPw rendered fetchedStatic = none ∨
        ∃ t, scrape_page_dynamic hasPw rendered fetchedStatic = some t ∧
          100 < t.length ∧ t ≠ "") ∧
    (∀ raw : String, 15000 < raw.length →
      scrape_page_static (some raw) = some (pySlice raw 15000 ++ truncationMarker) ∧
      ∀ fs, scrape_page_dynamic true (some raw) fs =
        some (pySlice raw 15000 ++ truncationMarker)) :=
  ⟨scrape_static_cases, scrape_dynamic_cases,
   fun raw h => ⟨postProcessText_trunc raw h, fun _ => postProcessText_trunc raw h⟩⟩

/-- A 15001-character page text, witnessing the truncation branch. -/
def bigPageText : String := ⟨List.replicate 15001 'a'⟩

/-- Witness for C9 at a concrete over-long page text. -/
theorem page_fetch_content_bounds_witness :
    scrape_page_static (some bigPageText) =
      some (pySlice bigPageText 15000 ++ truncationMarker) :=
  (page_fetch_content_bounds.2.2 bigPageText
    (by show 15000 < (List.replicate 15001 'a').length
        rw [List.length_replicate]
        omega)).1

/-- C10: every draft produced by the regex fallback extractor carries
`date_from` as its date, whatever date text actually matched. -/
theorem regex_fallback_date_from :
    ∀ (text source_url city date_from date_to : String),
    ∀ e ∈ regex_fallback text source_url city date_from date_to,
      e.date = some date_from := by
  intro text u c df dt e he
  simp only [regex_fallback] at he
  rcases List.mem_filterMap.mp (List.take_subset 20 _ he) with ⟨i, -, hf⟩
  split at hf
  · exact absurd hf (by simp)
  · split at hf
    · injection hf with h
      rw [← h]
    · exact absurd hf (by simp)

/-- A page text on which the regex fallback fires. -/
def sampleRegexText : String := "Big Party Night\n2025-06-01 Club X"

/-- The first draft the fallback produces on `sampleRegexText`. -/
def sampleRegexEvt : EventDict :=
  { name := some "Big Party Night",
    date := some "2025-06-01",
    genre := some "other",
    segment := some "other",
    target_audience := some "mainstream",
    source_url := some "https://example.com/x",
    source_platform := some "Web",
    description := some "Found on Web" }

/-- Witness for C10 at a concrete extraction. -/
theorem regex_fallback_date_from_witness :
    sampleRegexEvt.date = some "2025-06-01" :=
  regex_fallback_date_from sampleRegexText "https://example.com/x" "Miami"
    "2025-06-01" "2025-06-30" sampleRegexEvt (by decide)

theorem dedupGo_sublist : ∀ (l : List EventDict) (seen),
    (dedupGo seen l).Sublist l := by
  intro l
  induction l with
  | nil => intro seen; simp [dedupGo]
  | cons e rest ih =>
    intro seen
    simp only [dedupGo]
    split
    · exact (ih seen).cons e
    · exact (ih _).cons₂ e

theorem dedupGo_mem_not_seen : ∀ (l : List EventDict) (seen) (f : EventDict),
    f ∈ dedupGo seen l → eventKey f ∉ seen := by
  intro l
  induction l with
  | nil => intro seen f hf; simp [dedupGo] at hf
  | cons e rest ih =>
    intro seen f hf
    simp only [dedupGo] at hf
    split at hf
    · exact ih seen f hf
    · rename_i hns
      rcases List.mem_cons.mp hf with rfl | hf'
      · exact hns
      · intro hseen
        exact ih _ f hf' (List.mem_cons_of_mem _ hseen)

theorem dedupGo_pairwise : ∀ (l : List EventDict) (seen),
    (dedupGo seen l).Pairwise (fun a b => eventKey a ≠ eventKey b) := by
  intro l
  induction l with
  | nil => intro seen; simp [dedupGo]
  | cons e rest ih =>
    intro seen
    simp only [dedupGo]
    split
    · exact ih seen
    · refine List.Pairwise.cons ?_ (ih _)
      intro f hf heq
      exact dedupGo_mem_not_seen rest (eventKey e :: seen) f hf
        (by rw [← heq]; exact List.mem_cons_self _ _)

theorem dedupGo_find : ∀ (l : List EventDict) (seen) (e : EventDict),
    e ∈ l → eventKey e ∉ seen →
    ∃ f, l.find? (fun x => decide (eventKey x = eventKey e)) = some f ∧
      f ∈ dedupGo seen l ∧ eventKey f = eventKey e := by
  intro l
  induction l with
  | nil => intro seen e he; simp at he
  | cons h rest ih =>
    intro seen e he hns
    by_cases hk : eventKey h = eventKey e
    · refine ⟨h, ?_, ?_, hk⟩
      · rw [List.find?_cons_of_pos _ (by simp [hk])]
      · have hnotin : eventKey h ∉ seen := by rw [hk]; exact hns
        simp only [dedupGo]
        rw [if_neg hnotin]
        exact List.mem_cons_self h _
    · have he' : e ∈ rest := by
        rcases List.mem_cons.mp he with rfl | h'
        · exact absurd rfl hk
        · exact h'
      simp only [dedupGo]
      split
      · rcases ih seen e he' hns with ⟨f, hfind, hmem, hkey⟩
        exact ⟨f, by rw [List.find?_cons_of_neg _ (by simp [hk])]; exact hfind,
          hmem, hkey⟩
      · have hns' : eventKey e ∉ eventKey h :: seen := by
          intro hx
          rcases List.mem_cons.mp hx with hx | hx
          · exact hk hx.symm
          · exact hns hx
        rcases ih (eventKey h :: seen) e he' hns' with ⟨f, hfind, hmem, hkey⟩
        exact ⟨f, by rw [List.find?_cons_of_neg _ (by simp [hk])]; exact hfind,
          List.mem_cons_of_mem _ hmem, hkey⟩

/-- C6: `_deduplicate` keeps a sublist of the input (first-seen order
preserved), no two survivors share a (name-lower-trimmed, date,
venue-lower-trimmed) key, and every draft's key is represented by the
first input draft carrying that key (its fields retained). -/
theorem dedup_first_seen (l : List EventDict) :
    (deduplicate l).Sublist l ∧
    (deduplicate l).Pairwise (fun a b => eventKey a ≠ eventKey b) ∧
    ∀ e ∈ l, ∃ f, l.find? (fun x => decide (eventKey x = eventKey e)) = some f ∧
      f ∈ deduplicate l ∧ eventKey f = eventKey e := by
  refine ⟨dedupGo_sublist l [], dedupGo_pairwise l [], ?_⟩
  intro e he
  exact dedupGo_find l [] e he (by simp)

/-- Two drafts that differ only by case/whitespace in name and venue. -/
def dupEvtA : EventDict :=
  { name := some "Party A", date := some "2025-06-01", venue_name := some "Club X" }

/-- A duplicate of `dupEvtA` under the dedup key. -/
def dupEvtB : EventDict :=
  { name := some " PARTY A ", date := some "2025-06-01",
    venue_name := some "club x", description := some "duplicate" }

/-- Witness for C6 on a concrete duplicate pair. -/
theorem dedup_first_seen_witness :
    ∃ f, [dupEvtA, dupEvtB].find?
        (fun x => decide (eventKey x = eventKey dupEvtB)) = some f ∧
      f ∈ deduplicate [dupEvtA, dupEvtB] ∧ eventKey f = eventKey dupEvtB :=
  (dedup_first_seen [dupEvtA, dupEvtB]).2.2 dupEvtB (by decide)

theorem mergeNew_seen_mem : ∀ (rs : List SResult) (seen : List String) (x : String),
    x ∈ (mergeNew rs seen).2.1 ↔ x ∈ seen ∨ x ∈ rs.map (·.link) := by
  intro rs
  induction rs with
  | nil => intro seen x; simp [mergeNew]
  | cons r rs ih =>
    intro seen x
    simp only [mergeNew]
    split
    · rename_i hin
      rw [ih]
      simp only [List.map_cons, List.mem_cons]
      constructor
      · rintro (h | h)
        · exact Or.inl h
        · exact Or.inr (Or.inr h)
      · rintro (h | h | h)
        · exact Or.inl h
        · exact Or.inl (h ▸ hin)
        · exact Or.inr h
    · rw [ih]
      simp only [List.mem_cons, List.map_cons]
      tauto

theorem mergeNew_sublist : ∀ (rs : List SResult) (seen : List String),
    (mergeNew rs seen).1.Sublist rs := by
  intro rs
  induction rs with
  | nil => intro seen; simp [mergeNew]
  | cons r rs ih =>
    intro seen
    simp only [mergeNew]
    split
    · exact (ih seen).cons r
    · exact (ih _).cons₂ r

theorem mergeNew_not_seen : ∀ (rs : List SResult) (seen : List String) (m : SResult),
    m ∈ (mergeNew rs seen).1 → m.link ∉ seen := by
  intro rs
  induction rs with
  | nil => intro seen m hm; simp [mergeNew] at hm
  | cons r rs ih =>
    intro seen m hm
    simp only [mergeNew] at hm
    split at hm
    · exact ih seen m hm
    · rename_i hns
      rcases List.mem_cons.mp hm with rfl | hm'
      · exact hns
      · intro hseen
        exact ih _ m hm' (List.mem_cons_of_mem _ hseen)

theorem mergeNew_nodup : ∀ (rs : List SResult) (seen : List String),
    ((mergeNew rs seen).1.map (·.link)).Nodup := by
  intro rs
  induction rs with
  | nil => intro seen; simp [mergeNew]
  | cons r rs ih =>
    intro seen
    simp only [mergeNew]
    split
    · exact ih seen
    · rw [List.map_cons, List.nodup_cons]
      refine ⟨?_, ih _⟩
      intro hmem
      rcases List.mem_map.mp hmem with ⟨m, hm, hlink⟩
      exact mergeNew_not_seen rs (r.link :: seen) m hm
        (hlink ▸ List.mem_cons_self _ _)

theorem mergeNew_count : ∀ (rs : List SResult) (seen : List String),
    (mergeNew rs seen).2.2 = (mergeNew rs seen).1.length := by
  intro rs
  induction rs with
  | nil => intro seen; simp [mergeNew]
  | cons r rs ih =>
    intro seen
    simp only [mergeNew]
    split
    · exact ih seen
    · simp [ih]

theorem mergeNew_find : ∀ (rs : List SResult) (seen : List String) (r : SResult),
    r ∈ rs → r.link ∉ seen →
    ∃ m, rs.find? (fun x => decide (x.link = r.link)) = some m ∧
      m ∈ (mergeNew rs seen).1 ∧ m.link = r.link := by
  intro rs
  induction rs with
  | nil => intro seen r hr; simp at hr
  | cons h rs ih =>
    intro seen r hr hns
    by_cases hk : h.link = r.link
    · refine ⟨h, ?_, ?_, hk⟩
      · rw [List.find?_cons_of_pos _ (by simp [hk])]
      · have hnotin : h.link ∉ seen := by rw [hk]; exact hns
        simp only [mergeNew]
        rw [if_neg hnotin]
        exact List.mem_cons_self _ _
    · have hr' : r ∈ rs := by
        rcases List.mem_cons.mp hr with rfl | h'
        · exact absurd rfl hk
        · exact h'
      simp only [mergeNew]
      split
      · rcases ih seen r hr' hns with ⟨m, hfind, hmem, hlink⟩
        exact ⟨m, by rw [List.find?_cons_of_neg _ (by simp [hk])]; exact hfind,
          hmem, hlink⟩
      · have hns' : r.link ∉ h.link :: seen := by
          intro hx
          rcases List.mem_cons.mp hx with hx | hx
          · exact hk hx.symm
          · exact hns hx
        rcases ih (h.link :: seen) r hr' hns' with ⟨m, hfind, hmem, hlink⟩
        exact ⟨m, by rw [List.find?_cons_of_neg _ (by simp [hk])]; exact hfind,
          List.mem_cons_of_mem _ hmem, hlink⟩

theorem searchGo_spec (oracle : String → List SResult) :
    ∀ (queries : List SQuery) (seen : List String),
    (searchEventsGo oracle queries seen).1.Sublist
        (queries.flatMap (fun q => oracle q.query)) ∧
    (∀ m ∈ (searchEventsGo oracle queries seen).1, m.link ∉ seen) ∧
    ((searchEventsGo oracle queries seen).1.map (·.link)).Nodup ∧
    (∀ r ∈ queries.flatMap (fun q => oracle q.query), r.link ∉ seen →
      ∃ m, (queries.flatMap (fun q => oracle q.query)).find?
          (fun x => decide (x.link = r.link)) = some m ∧
        m ∈ (searchEventsGo oracle queries seen).1 ∧ m.link = r.link) ∧
    ((searchEventsGo oracle queries seen).2.map (·.new_unique)).sum =
      (searchEventsGo oracle queries seen).1.length := by
  intro queries
  induction queries with
  | nil =>
    intro seen
    simp [searchEventsGo]
  | cons q qs ih =>
    intro seen
    obtain ⟨ihSub, ihSeen, ihNodup, ihFind, ihSum⟩ := ih (mergeNew (oracle q.query) seen).2.1
    simp only [searchEventsGo, List.flatMap_cons]
    refine ⟨?_, ?_, ?_, ?_, ?_⟩
    · exact (mergeNew_sublist _ seen).append ihSub
    · intro m hm
      rcases List.mem_append.mp hm with hm | hm
      · exact mergeNew_not_seen _ seen m hm
      · intro hseen
        exact ihSeen m hm ((mergeNew_seen_mem _ seen m.link).mpr (Or.inl hseen))
    · rw [List.map_append]
      refine List.Nodup.append (mergeNew_nodup _ seen) ihNodup ?_
      intro a ha hb
      rcases List.mem_map.mp ha with ⟨m, hm, rfl⟩
      rcases List.mem_map.mp hb with ⟨m', hm', hl⟩
      have h1 : m.link ∈ (mergeNew (oracle q.query) seen).2.1 :=
        (mergeNew_seen_mem _ seen m.link).mpr
          (Or.inr (List.mem_map_of_mem _ ((mergeNew_sublist _ seen).subset hm)))
      exact ihSeen m' hm' (hl ▸ h1)
    · intro r hr hrs
      by_cases hresp : ∃ r' ∈ oracle q.query, r'.link = r.link
      · obtain ⟨r', hr', hl⟩ := hresp
        obtain ⟨m, hfind, hmem, hml⟩ :=
          mergeNew_find (oracle q.query) seen r' hr' (hl ▸ hrs)
        simp only [hl] at hfind hml
        refine ⟨m, ?_, List.mem_append_left _ hmem, hml⟩
        rw [List.find?_append, hfind]
        rfl
      · push_neg at hresp
        have hrflat : r ∈ qs.flatMap (fun q => oracle q.query) := by
          rcases List.mem_append.mp hr with h | h
          · exact absurd rfl (hresp r h)
          · exact h
        have hnone : (oracle q.query).find?
            (fun x => decide (x.link = r.link)) = none := by
          rw [List.find?_eq_none]
          intro x hx
          simp only [decide_eq_true_eq]
          exact hresp x hx
        have hns' : r.link ∉ (mergeNew (oracle q.query) seen).2.1 := by
          intro hmem
          rcases (mergeNew_seen_mem _ seen r.link).mp hmem with h | h
          · exact hrs h
          · rcases List.mem_map.mp h with ⟨x, hx, hlx⟩
            exact hresp x hx hlx
        obtain ⟨m, hfind, hmem, hml⟩ := ihFind r hrflat hns'
        refine ⟨m, ?_, List.mem_append_right _ hmem, hml⟩
        rw [List.find?_append, hnone, hfind]
        rfl
    · simp only [List.map_cons, List.sum_cons, ihSum, List.length_append]
      rw [mergeNew_count]

/-- C5: merging overlapping per-query responses keeps a sublist of the
issued-order concatenation with pairwise distinct URLs, every response
URL is represented by its first-seen result, and the per-query
`new_unique` counts sum to the merged list's length. -/
theorem search_merge_dedup (oracle : String → List SResult) (queries : List SQuery) :
    (search_events oracle queries).1.Sublist
        (queries.flatMap (fun q => oracle q.query)) ∧
    ((search_events oracle queries).1.map (·.link)).Nodup ∧
    (∀ r ∈ queries.flatMap (fun q => oracle q.query),
      ∃ m, (queries.flatMap (fun q => oracle q.query)).find?
          (fun x => decide (x.link = r.link)) = some m ∧
        m ∈ (search_events oracle queries).1 ∧ m.link = r.link) ∧
    ((search_events oracle queries).2.map (·.new_unique)).sum =
      (search_events oracle queries).1.length := by
  obtain ⟨h1, _, h3, h4, h5⟩ := searchGo_spec oracle queries []
  exact ⟨h1, h3, fun r hr => h4 r hr (by simp), h5⟩

/-- Two fixed queries for the C5 witness. -/
def sQ1 : SQuery := ⟨"q1", "general"⟩

/-- Second fixed query for the C5 witness. -/
def sQ2 : SQuery := ⟨"q2", "general"⟩

/-- A mock per-query response table with an overlapping URL. -/
def sOracle : String → List SResult := fun q =>
  if q = "q1" then
    [⟨"t1", "http://a", "s1", "serper"⟩, ⟨"t2", "http://b", "s2", "serper"⟩]
  else
    [⟨"t3", "http://b", "s3", "serper"⟩, ⟨"t4", "http://c", "s4", "serper"⟩]

/-- Witness for C5: the duplicated URL resolves to its first-seen result. -/
theorem search_merge_dedup_witness :
    ∃ m, ([sQ1, sQ2].flatMap (fun q => sOracle q.query)).find?
        (fun x => decide (x.link = (⟨"t3", "http://b", "s3", "serper"⟩ : SResult).link)) =
        some m ∧
      m ∈ (search_events sOracle [sQ1, sQ2]).1 ∧
      m.link = (⟨"t3", "http://b", "s3", "serper"⟩ : SResult).link :=
  (search_merge_dedup sOracle [sQ1, sQ2]).2.2.1
    ⟨"t3", "http://b", "s3", "serper"⟩ (by decide)

theorem competition_iff (n : Nat) :
    ((if n = 0 then "none" else if n ≤ 2 then "low"
        else if n ≤ 5 then "medium" else "high") = "none" ↔ n = 0) ∧
    ((if n = 0 then "none" else if n ≤ 2 then "low"
        else if n ≤ 5 then "medium" else "high") = "low" ↔ 1 ≤ n ∧ n ≤ 2) ∧
    ((if n = 0 then "none" else if n ≤ 2 then "low"
        else if n ≤ 5 then "medium" else "high") = "medium" ↔ 3 ≤ n ∧ n ≤ 5) ∧
    ((if n = 0 then "none" else if n ≤ 2 then "low"
        else if n ≤ 5 then "medium" else "high") = "high" ↔ 6 ≤ n) := by
  split_ifs with h1 h2 h3
  · exact ⟨iff_of_true rfl h1, iff_of_false (by decide) (by omega),
      iff_of_false (by decide) (by omega), iff_of_false (by decide) (by omega)⟩
  · exact ⟨iff_of_false (by decide) (by omega), iff_of_true rfl (by omega),
      iff_of_false (by decide) (by omega), iff_of_false (by decide) (by omega)⟩
  · exact ⟨iff_of_false (by decide) (by omega), iff_of_false (by decide) (by omega),
      iff_of_true rfl (by omega), iff_of_false (by decide) (by omega)⟩
  · exact ⟨iff_of_false (by decide) (by omega), iff_of_false (by decide) (by omega),
      iff_of_false (by decide) (by omega), iff_of_true rfl (by omega)⟩

/-- C8: in every day view produced by `get_results_by_date`, the
competition level is exactly the step function of the day's event count
(0 → none, 1–2 → low, 3–5 → medium, ≥6 → high). -/
theorem competition_level_step (events : List EventDict)
    (weather_days : List WeatherRec) :
    ∀ p ∈ get_results_by_date events weather_days,
      p.2.event_count = p.2.events.length ∧
      (p.2.competition_level = "none" ↔ p.2.event_count = 0) ∧
      (p.2.competition_level = "low" ↔ 1 ≤ p.2.event_count ∧ p.2.event_count ≤ 2) ∧
      (p.2.competition_level = "medium" ↔ 3 ≤ p.2.event_count ∧ p.2.event_count ≤ 5) ∧
      (p.2.competition_level = "high" ↔ 6 ≤ p.2.event_count) := by
  intro p hp
  simp only [get_results_by_date] at hp
  rcases List.mem_map.mp hp with ⟨d, -, rfl⟩
  exact ⟨rfl, competition_iff _⟩

/-- Three same-day events for the C8 witness. -/
def c8Events : List EventDict :=
  [{date := some "2025-06-01"}, {date := some "2025-06-01"}, {date := some "2025-06-01"}]

/-- The single day view `get_results_by_date` builds from `c8Events`. -/
def c8Pair : String × DayView :=
  ("2025-06-01",
   { date := "2025-06-01",
     day_name := "Sunday",
     events := c8Events,
     event_count := 3,
     competition_level := "medium",
     segment_counts := [("other", 3)],
     weather := none,
     has_own_event := false })

/-- Witness for C8 on a concrete three-event day. -/
theorem competition_level_step_witness :
    c8Pair.2.event_count = c8Pair.2.events.length ∧
    (c8Pair.2.competition_level = "none" ↔ c8Pair.2.event_count = 0) ∧
    (c8Pair.2.competition_level = "low" ↔
      1 ≤ c8Pair.2.event_count ∧ c8Pair.2.event_count ≤ 2) ∧
    (c8Pair.2.competition_level = "medium" ↔
      3 ≤ c8Pair.2.event_count ∧ c8Pair.2.event_count ≤ 5) ∧
    (c8Pair.2.competition_level = "high" ↔ 6 ≤ c8Pair.2.event_count) :=
  competition_level_step c8Events [] c8Pair (by decide)

theorem forecastRecAt_type (data : DailyData) (i : Nat) (r : WeatherRec)
    (h : forecastRecAt data i = .ok r) : r.data_type = "forecast" := by
  unfold forecastRecAt at h
  obtain ⟨tmax, -, h⟩ := exceptBindOk h
  obtain ⟨tmin, -, h⟩ := exceptBindOk h
  obtain ⟨pp, -, h⟩ := exceptBindOk h
  obtain ⟨w, -, h⟩ := exceptBindOk h
  obtain ⟨code, -, h⟩ := exceptBindOk h
  cases h
  rfl

theorem fetchForecastGo_type (data : DailyData) :
    ∀ (idxs : List Nat) (recs : List WeatherRec),
    fetchForecastGo data idxs = .ok recs → ∀ r ∈ recs, r.data_type = "forecast" := by
  intro idxs
  induction idxs with
  | nil =>
    intro recs h r hr
    simp only [fetchForecastGo] at h
    cases h
    simp at hr
  | cons i is ih =>
    intro recs h r hr
    simp only [fetchForecastGo] at h
    obtain ⟨rec1, h1, h⟩ := exceptBindOk h
    obtain ⟨rest, h2, h⟩ := exceptBindOk h
    cases h
    rcases List.mem_cons.mp hr with rfl | hr'
    · exact forecastRecAt_type data i r h1
    · exact ih rest h2 r hr'

/-- C2 (amended): in `get_weather_for_range`, every requested day outside
the near-term horizon (today .. today+14) is resolved directly by the
climate estimate — the output is the forecast-derived block followed by
one `fallback_estimate` record per beyond-horizon day, and no produced
record ever has the historical-average provenance. -/
theorem weather_beyond_horizon_estimate (today : PyDate)
    (oracle : PyDate → PyDate → Option DailyData) (lat lon : ℚ)
    (date_from date_to : PyDate) :
    (∃ fres, get_weather_for_range today oracle lat lon date_from date_to =
      fres ++ ((dateRange date_from date_to).filter
        (fun d => !(today.le d && d.le (today.addDays 14)))).map
          (fun d => fallback_estimate d lat)) ∧
    (∀ d ∈ (dateRange date_from date_to).filter
        (fun d => !(today.le d && d.le (today.addDays 14))),
      fallback_estimate d lat ∈
        get_weather_for_range today oracle lat lon date_from date_to ∧
      (fallback_estimate d lat).data_type = "estimate") ∧
    (∀ r ∈ get_weather_for_range today oracle lat lon date_from date_to,
      r.data_type = "forecast" ∨ r.data_type = "estimate") := by
  have hpart : ((dateRange date_from date_to).partition
      (fun d => today.le d && d.le (today.addDays 14))).2 =
      (dateRange date_from date_to).filter
        (fun d => !(today.le d && d.le (today.addDays 14))) := by
    rw [List.partition_eq_filter_filter]
    rfl
  have key : get_weather_for_range today oracle lat lon date_from date_to =
      (match ((dateRange date_from date_to).partition
          (fun d => today.le d && d.le (today.addDays 14))).1 with
        | [] => []
        | f0 :: fs =>
          match oracle f0 ((f0 :: fs).getLast (List.cons_ne_nil f0 fs)) with
          | none => (f0 :: fs).map (fun d => fallback_estimate d lat)
          | some data =>
            match fetch_forecast data with
            | .ok recs => recs
            | .error _ => (f0 :: fs).map (fun d => fallback_estimate d lat)) ++
      ((dateRange date_from date_to).filter
        (fun d => !(today.le d && d.le (today.addDays 14)))).map
          (fun d => fallback_estimate d lat) := by
    simp only [get_weather_for_range]
    rw [hpart]
  refine ⟨⟨_, key⟩, ?_, ?_⟩
  · intro d hd
    refine ⟨?_, rfl⟩
    rw [key]
    exact List.mem_append_right _ (List.mem_map_of_mem _ hd)
  · intro r hr
    rw [key] at hr
    rcases List.mem_append.mp hr with hr | hr
    · rcases hcase : ((dateRange date_from date_to).partition
          (fun d => today.le d && d.le (today.addDays 14))).1 with _ | ⟨f0, fs⟩
      · rw [hcase] at hr
        exact absurd (hr : r ∈ ([] : List WeatherRec)) (List.not_mem_nil r)
      · rw [hcase] at hr
        have hr2 : r ∈ (match oracle f0 ((f0 :: fs).getLast (List.cons_ne_nil f0 fs)) with
          | none => (f0 :: fs).map (fun d => fallback_estimate d lat)
          | some data => match fetch_forecast data with
            | .ok recs => recs
            | .error _ => (f0 :: fs).map (fun d => fallback_estimate d lat)) := hr
        rcases horacle : oracle f0 ((f0 :: fs).getLast (List.cons_ne_nil f0 fs))
          with _ | data
        · rw [horacle] at hr2
          rcases List.mem_map.mp hr2 with ⟨d, -, rfl⟩
          exact Or.inr rfl
        · rw [horacle] at hr2
          have hr3 : r ∈ (match fetch_forecast data with
            | .ok recs => recs
            | .error _ => (f0 :: fs).map (fun d => fallback_estimate d lat)) := hr2
          rcases hfc : fetch_forecast data with err | recs
          · rw [hfc] at hr3
            rcases List.mem_map.mp hr3 with ⟨d, -, rfl⟩
            exact Or.inr rfl
          · rw [hfc] at hr3
            exact Or.inl (fetchForecastGo_type data _ recs hfc r hr3)
    · rcases List.mem_map.mp hr with ⟨d, -, rfl⟩
      exact Or.inr rfl

/-- Current day used by the weather counterexample. -/
def wxToday : PyDate := ⟨2026, 10, 12⟩

/-- A requested day beyond the 14-day forecast horizon. -/
def wxDay : PyDate := ⟨2026, 12, 25⟩

/-- An archive response with one entry matching `wxDay`'s month/day. -/
def wxHistData : DailyData :=
  { time := ["2025-12-25"],
    temperature_2m_max := [some 30],
    temperature_2m_min := [some 20],
    precipitation_sum := [some 0],
    wind_speed_10m_max := [some 10],
    weather_code := [some 0] }

/-- A historical-archive oracle that always succeeds with `wxHistData`. -/
def wxOracleHist : PyDate → PyDate → Option DailyData := fun _ _ => some wxHistData

/-- A forecast oracle (unused for a fully beyond-horizon range). -/
def wxOracleFc : PyDate → PyDate → Option DailyData := fun _ _ => none

/-- C2 (counterexample): for the beyond-horizon day `wxDay`, the
historical-average procedure would succeed (matching entries exist and
the archive call works), yet `get_weather_for_range` resolves the day
with the climate estimate — it never consults the historical path. -/
theorem weather_beyond_horizon_counterexample :
    (wxToday.le wxDay && wxDay.le (wxToday.addDays 14)) = false ∧
    (match fetch_historical_averages wxToday wxOracleHist 10 [wxDay] with
      | .ok recs => recs.map (·.data_type)
      | .error _ => []) = ["historical_avg"] ∧
    (get_weather_for_range wxToday wxOracleFc 10 20 wxDay wxDay).map (·.data_type) =
      ["estimate"] ∧
    ("estimate" : String) ≠ "historical_avg" :=
  ⟨by decide, by decide, by decide, by decide⟩

/-- Witness for the amended C2 at a concrete beyond-horizon day. -/
theorem weather_beyond_horizon_estimate_witness :
    fallback_estimate wxDay 10 ∈
      get_weather_for_range wxToday wxOracleFc 10 20 wxDay wxDay ∧
    (fallback_estimate wxDay 10).data_type = "estimate" :=
  (weather_beyond_horizon_estimate wxToday wxOracleFc 10 20 wxDay wxDay).2.1
    wxDay (by decide)

/-- C4: `_build_queries` is not total — advancing the month cursor with
`date.replace` raises `ValueError` whenever the range starts on a day
that does not exist in the following month (here January 31). -/
theorem build_queries_value_error :
    build_queries "Madrid" "ES" ⟨2025, 1, 31⟩ ⟨2025, 2, 5⟩ none =
      .error "day is out of range for month" := rfl

/-- C3 (counterexample): the range 2025-01-01 .. 2025-04-01 touches
April 2025, but with four months the 12-query cap drops every
April query, so no non-platform query mentions that month. -/
theorem month_coverage_counterexample :
    monthsEnum ⟨2025, 1, 1⟩ ⟨2025, 4, 1⟩ =
      .ok [(1, 2025), (2, 2025), (3, 2025), (4, 2025)] ∧
    monthLabel monthNameEn (4, 2025) = "April 2025" ∧
    (match build_queries "Austin" "US" ⟨2025, 1, 1⟩ ⟨2025, 4, 1⟩ none with
      | .ok qs => qs.all (fun q => q.type == "platform" ||
          !(strContains q.query "April 2025"))
      | .error _ => false) = true :=
  ⟨rfl, rfl, by decide⟩

theorem except_bind_ok {ε α β : Type} (a : α) (f : α → Except ε β) :
    (Except.ok a >>= f : Except ε β) = f a := rfl

theorem except_pure_eq {ε α : Type} (a : α) :
    (pure a : Except ε α) = Except.ok a := rfl

theorem dedupQueriesGo_find : ∀ (l : List SQuery) (seen : List String) (q : SQuery),
    q ∈ l → q.query ∉ seen →
    ∃ x, l.find? (fun y => decide (y.query = q.query)) = some x ∧
      x ∈ dedupQueriesGo seen l ∧ x.query = q.query := by
  intro l
  induction l with
  | nil => intro seen q hq; simp at hq
  | cons h rest ih =>
    intro seen q hq hns
    by_cases hk : h.query = q.query
    · refine ⟨h, ?_, ?_, hk⟩
      · rw [List.find?_cons_of_pos _ (by simp [hk])]
      · have hnotin : h.query ∉ seen := by rw [hk]; exact hns
        simp only [dedupQueriesGo]
        rw [if_neg hnotin]
        exact List.mem_cons_self _ _
    · have hq' : q ∈ rest := by
        rcases List.mem_cons.mp hq with rfl | h'
        · exact absurd rfl hk
        · exact h'
      simp only [dedupQueriesGo]
      split
      · rcases ih seen q hq' hns with ⟨x, hfind, hmem, hxq⟩
        exact ⟨x, by rw [List.find?_cons_of_neg _ (by simp [hk])]; exact hfind,
          hmem, hxq⟩
      · have hns' : q.query ∉ h.query :: seen := by
          intro hx
          rcases List.mem_cons.mp hx with hx | hx
          · exact hk hx.symm
          · exact hns hx
        rcases ih (h.query :: seen) q hq' hns' with ⟨x, hfind, hmem, hxq⟩
        exact ⟨x, by rw [List.find?_cons_of_neg _ (by simp [hk])]; exact hfind,
          List.mem_cons_of_mem _ hmem, hxq⟩

theorem mem_take_flatMap_head {α β : Type} (f : α → List β) (w : Nat)
    (hw : ∀ a, (f a).length = w) :
    ∀ (l : List α) (k : Nat) (hk : k < l.length) (b : β),
      (f (l.get ⟨k, hk⟩)).head? = some b →
      ∀ N : Nat, k * w < N → b ∈ (l.flatMap f).take N := by
  intro l
  induction l with
  | nil => intro k hk; simp at hk
  | cons a l ih =>
    intro k hk b hb N hN
    cases k with
    | zero =>
      have hb2 : (f a).head? = some b := hb
      rw [List.flatMap_cons]
      cases hfa : f a with
      | nil => rw [hfa] at hb2; simp at hb2
      | cons x xs =>
        rw [hfa] at hb2
        simp only [List.head?_cons, Option.some.injEq] at hb2
        cases N with
        | zero => omega
        | succ m =>
          rw [List.cons_append, List.take_succ_cons]
          exact hb2 ▸ List.mem_cons_self x _
    | succ k' =>
      rw [List.flatMap_cons, List.take_append_eq_append_take]
      refine List.mem_append_right _ ?_
      have hk' : k' < l.length := by
        have := hk
        simp only [List.length_cons] at this
        omega
      have hb2 : (f (l.get ⟨k', hk'⟩)).head? = some b := hb
      refine ih k' hk' b hb2 (N - (f a).length) ?_
      rw [hw a]
      have : (k' + 1) * w = k' * w + w := by ring
      omega

/-- The per-month block of English general/segment queries built by
`_build_queries` (named here for the coverage proof; `build_queries`
inlines the same expression). -/
def enBlock (city : String) (segs : List String) (month : String) : List SQuery :=
  [⟨"events parties " ++ city ++ " " ++ month, "general"⟩,
   ⟨"club nights DJ sets " ++ city ++ " " ++ month, "general"⟩,
   ⟨"nightlife parties " ++ city ++ " " ++ month ++ " tickets", "general"⟩,
   ⟨"concerts live music " ++ city ++ " " ++ month, "general"⟩]
  ++ segs.map (fun seg =>
      (⟨seg ++ " party events " ++ city ++ " " ++ month, "segment"⟩ : SQuery))

theorem enBlock_length (city : String) (segs : List String) (month : String) :
    (enBlock city segs month).length = 4 + segs.length := by
  simp [enBlock]
  omega

theorem enBlock_type (city : String) (segs : List String) (month : String) :
    ∀ x ∈ enBlock city segs month, x.type ≠ "platform" := by
  intro x hx
  simp only [enBlock, List.mem_append, List.mem_cons, List.mem_map,
    List.not_mem_nil, or_false, List.mem_singleton] at hx
  rcases hx with (rfl | rfl | rfl | rfl) | ⟨seg, -, rfl⟩ <;>
    first
    | (show ("general" : String) ≠ "platform"; decide)
    | (show ("segment" : String) ≠ "platform"; decide)

theorem coverage_core (city : String) (segs : List String)
    (pairs : List (Nat × Nat)) (restQ platQ : List SQuery) (p : Nat × Nat)
    (hp : p ∈ pairs)
    (hcap : (pairs.length - 1) * (4 + segs.length) < 12) :
    ∃ x ∈ dedupQueriesGo []
      ((((pairs.map (monthLabel monthNameEn)).flatMap (enBlock city segs)
        ++ restQ).filter (fun q => decide (q.type ≠ "platform"))).take 12 ++ platQ),
      x.type ≠ "platform" ∧ strContains x.query (monthLabel monthNameEn p) = true := by
  obtain ⟨⟨k, hk⟩, hget⟩ := List.mem_iff_get.mp hp
  have hfilter : (((pairs.map (monthLabel monthNameEn)).flatMap (enBlock city segs)
      ++ restQ).filter (fun q => decide (q.type ≠ "platform"))) =
      (pairs.map (monthLabel monthNameEn)).flatMap (enBlock city segs)
        ++ restQ.filter (fun q => decide (q.type ≠ "platform")) := by
    rw [List.filter_append, List.filter_eq_self.mpr]
    intro x hx
    rcases List.mem_flatMap.mp hx with ⟨m, -, hxm⟩
    simpa using enBlock_type city segs m x hxm
  have hkm : k < (pairs.map (monthLabel monthNameEn)).length := by
    simpa using hk
  have hhead : (enBlock city segs
      ((pairs.map (monthLabel monthNameEn)).get ⟨k, hkm⟩)).head? =
      some ⟨"events parties " ++ city ++ " " ++ monthLabel monthNameEn p, "general"⟩ := by
    rw [List.get_map, hget]
    rfl
  have hq0take : (⟨"events parties " ++ city ++ " " ++ monthLabel monthNameEn p,
      "general"⟩ : SQuery) ∈
      ((pairs.map (monthLabel monthNameEn)).flatMap (enBlock city segs)).take 12 := by
    refine mem_take_flatMap_head (enBlock city segs) (4 + segs.length)
      (enBlock_length city segs) _ k hkm _ hhead 12 ?_
    have hkle : k ≤ pairs.length - 1 := by omega
    calc k * (4 + segs.length) ≤ (pairs.length - 1) * (4 + segs.length) :=
          Nat.mul_le_mul_right _ hkle
      _ < 12 := hcap
  have hq0gen : (⟨"events parties " ++ city ++ " " ++ monthLabel monthNameEn p,
      "general"⟩ : SQuery) ∈
      (((pairs.map (monthLabel monthNameEn)).flatMap (enBlock city segs)
        ++ restQ).filter (fun q => decide (q.type ≠ "platform"))).take 12 := by
    rw [hfilter, List.take_append_eq_append_take]
    exact List.mem_append_left _ hq0take
  obtain ⟨x, hfind, hxmem, hxq⟩ := dedupQueriesGo_find _ []
    ⟨"events parties " ++ city ++ " " ++ monthLabel monthNameEn p, "general"⟩
    (List.mem_append_left platQ hq0gen) (by simp)
  refine ⟨x, hxmem, ?_, ?_⟩
  · -- x is an element of the capped general prefix, hence non-platform
    rw [List.find?_append] at hfind
    have hxpre : x ∈ (((pairs.map (monthLabel monthNameEn)).flatMap (enBlock city segs)
        ++ restQ).filter (fun q => decide (q.type ≠ "platform"))).take 12 := by
      cases hpre : ((((pairs.map (monthLabel monthNameEn)).flatMap (enBlock city segs)
          ++ restQ).filter (fun q => decide (q.type ≠ "platform"))).take 12).find?
          (fun y => decide (y.query =
            (⟨"events parties " ++ city ++ " " ++ monthLabel monthNameEn p,
              "general"⟩ : SQuery).query)) with
      | some y =>
        rw [hpre] at hfind
        have h2 : some y = some x := hfind
        cases h2
        exact List.mem_of_find?_eq_some hpre
      | none =>
        exact absurd (by simp : (fun y : SQuery => decide (y.query =
            (⟨"events parties " ++ city ++ " " ++ monthLabel monthNameEn p,
              "general"⟩ : SQuery).query))
            ⟨"events parties " ++ city ++ " " ++ monthLabel monthNameEn p, "general"⟩ = true)
          (by simpa using List.find?_eq_none.mp hpre _ hq0gen)
    have hxfull := List.take_subset 12 _ hxpre
    rw [hfilter] at hxfull
    rcases List.mem_append.mp hxfull with hxl | hxr
    · rcases List.mem_flatMap.mp hxl with ⟨m, -, hxm⟩
      exact enBlock_type city segs m x hxm
    · have := List.of_mem_filter hxr
      simpa using this
  · rw [hxq]
    exact strContains_append_self ("events parties " ++ city ++ " ") _

/-- C3 (amended): every month touched by the range appears in at least
one non-platform query, provided the month enumeration does not raise
and the 12-query general cap reaches every month's first query, i.e.
`(numMonths - 1) * (4 + numSegments) < 12` (at most 3 months with no
segments); ranges spanning more months have their later months dropped. -/
theorem month_coverage_under_cap
    (city country : String) (date_from date_to : PyDate)
    (segments : Option (List String)) (pairs : List (Nat × Nat))
    (hok : monthsEnum date_from date_to = .ok pairs)
    (hcap : (pairs.length - 1) * (4 + (segList segments).length) < 12)
    (p : Nat × Nat) (hp : p ∈ pairs) :
    ∃ qs, build_queries city country date_from date_to segments = .ok qs ∧
      ∃ q ∈ qs, q.type ≠ "platform" ∧
        strContains q.query (monthLabel monthNameEn p) = true := by
  have hrw : (fun month =>
      [(⟨"events parties " ++ city ++ " " ++ month, "general"⟩ : SQuery),
       ⟨"club nights DJ sets " ++ city ++ " " ++ month, "general"⟩,
       ⟨"nightlife parties " ++ city ++ " " ++ month ++ " tickets", "general"⟩,
       ⟨"concerts live music " ++ city ++ " " ++ month, "general"⟩]
      ++ (segList segments).map (fun seg =>
          (⟨seg ++ " party events " ++ city ++ " " ++ month, "segment"⟩ : SQuery))) =
      enBlock city (segList segments) := rfl
  by_cases hBR : country = "BR"
  · simp only [build_queries, hok, except_bind_ok, hBR, if_true, except_pure_eq]
    refine ⟨_, rfl, ?_⟩
    rw [hrw]
    simp only [List.append_assoc]
    exact coverage_core city (segList segments) pairs _ _ p hp hcap
  · simp only [build_queries, hok, except_bind_ok, hBR, if_false, except_pure_eq]
    refine ⟨_, rfl, ?_⟩
    rw [hrw]
    simp only [List.append_assoc, List.nil_append]
    exact coverage_core city (segList segments) pairs _ _ p hp hcap

/-- Witness for the amended C3 on a two-month range. -/
theorem month_coverage_under_cap_witness :
    ∃ qs, build_queries "Lima" "PE" ⟨2025, 7, 1⟩ ⟨2025, 8, 1⟩ none = .ok qs ∧
      ∃ q ∈ qs, q.type ≠ "platform" ∧
        strContains q.query (monthLabel monthNameEn (8, 2025)) = true :=
  month_coverage_under_cap "Lima" "PE" ⟨2025, 7, 1⟩ ⟨2025, 8, 1⟩ none
    [(7, 2025), (8, 2025)] rfl (by decide) (8, 2025) (by decide)
